import Mathlib

/-!
Shallow embedding of the value-lifecycle engine of `semantic-ui-calendar-react`
(`src/inputs/DateTimeInput.tsx` and `src/inputs/MonthInput.tsx`), together with
theorems settling the specification claims about it.

The embedding mirrors the TypeScript source: the mode maps `nextMode`/`prevMode`,
the format resolver `getDateTimeFormat` (including the JavaScript falsy behaviour
of `dateTimeFormat || ...`), the selection handler `handleSelectUndelayed` with
its deferred mode switch, the focus handler `onFocus`, the `componentDidUpdate`
guard, and the onChange payload construction `\x7b ...this.props, value \x7d`.
Helper modules of the repository that are not part of the two source files
(`./parse`, `../lib`'s `tick`) are modelled from the specification and marked
`Modelled from the spec:` in their doc comments.
-/

namespace SemanticUICalendar

/-- The five calendar granularities, `type CalendarMode` in DateTimeInput.tsx. -/
inductive CalendarMode where
  | year
  | month
  | day
  | hour
  | minute
deriving DecidableEq, Repr

/-- The forward mode map, the dictionary `nextMode` in DateTimeInput.tsx
(`year→month, month→day, day→hour, hour→minute, minute→year`),
read through `getNextMode`. -/
def getNextMode : CalendarMode → CalendarMode
  | .year => .month
  | .month => .day
  | .day => .hour
  | .hour => .minute
  | .minute => .year

/-- The backward mode map, the dictionary `prevMode` in DateTimeInput.tsx
(`minute→hour, hour→day, day→month, month→year, year→minute`),
read through `getPrevMode`. -/
def getPrevMode : CalendarMode → CalendarMode
  | .minute => .hour
  | .hour => .day
  | .day => .month
  | .month => .year
  | .year => .minute

/-- The `timeFormat` prop, `'12' | '24'`. -/
inductive TimeFormat where
  | h12
  | h24
deriving DecidableEq, Repr

/-- Modelled from the spec: the `TIME_FORMAT` table imported from
`src/inputs/parse.ts` (not under src/); it maps `'12'` and `'24'` to their
fixed time-token strings, the 24-hour one being the `HH:mm` tail of the
default composite format `DD-MM-YYYY HH:mm` used throughout the spec. -/
def TIME_FORMAT : TimeFormat → String
  | .h12 => "hh:mm A"
  | .h24 => "HH:mm"

/-- The configuration surface of `DateTimeInput` (the props recognised by the
component, `DateTimeInputProps`). `dateTimeFormat` is optional; an `Option`
with `some ""` models the JavaScript empty string, which is falsy. -/
structure DateTimeInputProps where
  value : String
  dateFormat : String
  timeFormat : TimeFormat
  divider : String
  dateTimeFormat : Option String
  startMode : CalendarMode
  preserveViewMode : Bool
  closable : Bool
  initialDate : String
  disable : List String
  minDate : String
  maxDate : String
  marked : List String
  markColor : String
  localization : String
deriving DecidableEq, Repr

/-- The format resolver `getDateTimeFormat` of DateTimeInput.tsx:
`dateTimeFormat || dateFormat + divider + TIME_FORMAT[timeFormat]`.
The JavaScript `||` falls through on every falsy value, so a provided but
empty `dateTimeFormat` string does NOT short-circuit. -/
def getDateTimeFormat (p : DateTimeInputProps) : String :=
  match p.dateTimeFormat with
  | some s => if s = "" then p.dateFormat ++ p.divider ++ TIME_FORMAT p.timeFormat else s
  | none => p.dateFormat ++ p.divider ++ TIME_FORMAT p.timeFormat

/-- The component state, `DateTimeInputState`: the active mode, the five stored
date fields (each possibly `undefined`, hence `Option Nat`), and the popup flag. -/
structure DateTimeInputState where
  mode : CalendarMode
  year : Option Nat
  month : Option Nat
  date : Option Nat
  hour : Option Nat
  minute : Option Nat
  popupIsClosed : Bool
deriving DecidableEq, Repr

/-- The `value` object delivered by a picker's onChange
(`BasePickerOnChangeData.value`): year/month/date/hour/minute fields,
each possibly absent. -/
structure PickerValue where
  year : Option Nat
  month : Option Nat
  date : Option Nat
  hour : Option Nat
  minute : Option Nat
deriving DecidableEq, Repr

/-- `switchToNextModeUndelayed`: replace the mode by its forward successor. -/
def switchToNextModeUndelayed (st : DateTimeInputState) : DateTimeInputState :=
  { st with mode := getNextMode st.mode }

/-- `switchToPrevModeUndelayed`: replace the mode by its backward successor. -/
def switchToPrevModeUndelayed (st : DateTimeInputState) : DateTimeInputState :=
  { st with mode := getPrevMode st.mode }

/-- The `onFocus` handler of DateTimeInput.tsx: when `preserveViewMode` is
false, reset the mode to the configured `startMode`; otherwise do nothing. -/
def onFocus (p : DateTimeInputProps) (st : DateTimeInputState) : DateTimeInputState :=
  if p.preserveViewMode then st else { st with mode := p.startMode }

/-! ### Serializer and parser, modelled from the spec

The Serializer and Value Parser live in `src/inputs/parse.ts` and in the moment
library, neither of which is under src/.  Following the spec they are modelled
as a token-based formatter/scanner over the moment tokens the spec uses
(`YYYY`, `MM`, `DD`, `HH`, `mm`, plus literal characters), locale-independent
since all these tokens are numeric. -/

/-- A format token: a four-digit year, two-digit month/day/hour/minute, or a
literal character. -/
inductive FmtToken where
  | tYYYY
  | tMM
  | tDD
  | tHH
  | tmm
  | tLit (c : Char)
deriving DecidableEq, Repr

/-- Modelled from the spec: greedy scan of a moment format string into tokens,
covering the numeric tokens of the spec's composite formats. -/
def tokenize : List Char → List FmtToken
  | 'Y' :: 'Y' :: 'Y' :: 'Y' :: rest => .tYYYY :: tokenize rest
  | 'M' :: 'M' :: rest => .tMM :: tokenize rest
  | 'D' :: 'D' :: rest => .tDD :: tokenize rest
  | 'H' :: 'H' :: rest => .tHH :: tokenize rest
  | 'm' :: 'm' :: rest => .tmm :: tokenize rest
  | c :: rest => .tLit c :: tokenize rest
  | [] => []

/-- A canonical date value fully specified down to the minute: the internal
structured representation, month 0-based as in moment and in the component
state. -/
structure CanonicalDate where
  year : Nat
  month : Nat
  date : Nat
  hour : Nat
  minute : Nat
deriving DecidableEq, Repr

instance : Inhabited CanonicalDate := ⟨⟨0, 0, 1, 0, 0⟩⟩

/-- The decimal digit character for `d < 10`. -/
def digitChar (d : Nat) : Char := Char.ofNat (48 + d)

/-- Two-digit zero-padded decimal rendering. -/
def pad2 (n : Nat) : List Char := [digitChar (n / 10 % 10), digitChar (n % 10)]

/-- Four-digit zero-padded decimal rendering. -/
def pad4 (n : Nat) : List Char :=
  [digitChar (n / 1000 % 10), digitChar (n / 100 % 10), digitChar (n / 10 % 10),
    digitChar (n % 10)]

/-- Modelled from the spec: rendering of one format token for a canonical
value; `MM` prints the 1-based month as moment does. -/
def serializeTok (v : CanonicalDate) : FmtToken → List Char
  | .tYYYY => pad4 v.year
  | .tMM => pad2 (v.month + 1)
  | .tDD => pad2 v.date
  | .tHH => pad2 v.hour
  | .tmm => pad2 v.minute
  | .tLit c => [c]

/-- Modelled from the spec: the Serializer, `serialize(v, f, l)` — format a
canonical value with a token list. -/
def serializeToks (v : CanonicalDate) (toks : List FmtToken) : List Char :=
  (toks.map (serializeTok v)).flatten

/-- Modelled from the spec: `moment(v).format(fmt)` on a fully specified
value, used at the minute-mode commit. -/
def formatMoment (v : CanonicalDate) (fmt : String) : String :=
  ⟨serializeToks v (tokenize fmt.data)⟩

/-- Read one decimal digit character. -/
def readDigit (c : Char) : Option Nat :=
  if 48 ≤ c.toNat ∧ c.toNat ≤ 57 then some (c.toNat - 48) else none

/-- Read exactly two digit characters as a number. -/
def read2 : List Char → Option (Nat × List Char)
  | c1 :: c2 :: rest => do
      let d1 ← readDigit c1
      let d2 ← readDigit c2
      pure (d1 * 10 + d2, rest)
  | _ => none

/-- Read exactly four digit characters as a number. -/
def read4 : List Char → Option (Nat × List Char)
  | c1 :: c2 :: c3 :: c4 :: rest => do
      let d1 ← readDigit c1
      let d2 ← readDigit c2
      let d3 ← readDigit c3
      let d4 ← readDigit c4
      pure (((d1 * 10 + d2) * 10 + d3) * 10 + d4, rest)
  | _ => none

/-- Modelled from the spec: run the strict Value Parser over a token list,
consuming the input and accumulating fields; fails on any mismatch. -/
def runParse : List FmtToken → List Char → CanonicalDate →
    Option (CanonicalDate × List Char)
  | [], cs, acc => some (acc, cs)
  | .tYYYY :: ts, cs, acc => do
      let (n, cs') ← read4 cs
      runParse ts cs' { acc with year := n }
  | .tMM :: ts, cs, acc => do
      let (n, cs') ← read2 cs
      runParse ts cs' { acc with month := n - 1 }
  | .tDD :: ts, cs, acc => do
      let (n, cs') ← read2 cs
      runParse ts cs' { acc with date := n }
  | .tHH :: ts, cs, acc => do
      let (n, cs') ← read2 cs
      runParse ts cs' { acc with hour := n }
  | .tmm :: ts, cs, acc => do
      let (n, cs') ← read2 cs
      runParse ts cs' { acc with minute := n }
  | .tLit c :: ts, cs, acc =>
      match cs with
      | c' :: cs' => if c' = c then runParse ts cs' acc else none
      | [] => none

/-- Modelled from the spec: the strict Value Parser `parse(raw, format, l)`
on a single string — the whole input must be consumed, extra or missing
characters are rejected, and failure yields the absent marker `none`. -/
def parseFormat (s : String) (fmt : String) : Option CanonicalDate :=
  match runParse (tokenize fmt.data) s.data default with
  | some (d, []) => some d
  | _ => none

/-! ### The selection handler -/

/-- Modelled from the spec: the canonical value `moment(value)` builds from a
picker's `value` object at the minute-mode commit, where every field has been
accumulated; absent fields take moment's unit defaults. -/
def pickerToCanonical (v : PickerValue) : CanonicalDate :=
  { year := v.year.getD 0, month := v.month.getD 0, date := v.date.getD 1,
    hour := v.hour.getD 0, minute := v.minute.getD 0 }

/-- The observable outcome of one run of `handleSelectUndelayed`:
the new component state, the data object passed to the caller's `onChange`
when it fired (`\x7b ...this.props, value: outValue \x7d`), and whether a
`switchToNextMode` was scheduled by the setState completion callback. -/
structure SelectOutcome where
  state : DateTimeInputState
  onChangeData : Option DateTimeInputProps
  nextScheduled : Bool
deriving DecidableEq, Repr

/-- `handleSelectUndelayed` of DateTimeInput.tsx: close the popup when
closable in minute mode; in minute mode serialize the selection with the
effective format and fire `onChange` with the props merged with the new value;
store the selected fields; schedule `switchToNextMode` exactly when the mode
(unchanged by the field update) is not `minute`. -/
def handleSelectUndelayed (p : DateTimeInputProps) (st : DateTimeInputState)
    (v : PickerValue) : SelectOutcome :=
  let st1 := if p.closable ∧ st.mode = .minute then { st with popupIsClosed := true } else st
  let fired : Option DateTimeInputProps :=
    if st1.mode = .minute then
      some { p with value := formatMoment (pickerToCanonical v) (getDateTimeFormat p) }
    else none
  let st2 := { st1 with year := v.year, month := v.month, date := v.date,
                        hour := v.hour, minute := v.minute }
  { state := st2, onChangeData := fired, nextScheduled := st2.mode ≠ .minute }

/-- One confirmed selection, the deferred mode switch included: run
`handleSelectUndelayed` and then the `switchToNextModeUndelayed` it scheduled,
if any. -/
def handleSelectRun (p : DateTimeInputProps) (st : DateTimeInputState)
    (v : PickerValue) : SelectOutcome :=
  let o := handleSelectUndelayed p st v
  { o with state := if o.nextScheduled then switchToNextModeUndelayed o.state else o.state }

/-- The data object `onInputValueChange` of DateTimeInput.tsx passes to the
caller's `onChange`: `\x7b ...this.props, value \x7d` with the raw text. -/
def onInputValueChangeData (p : DateTimeInputProps) (raw : String) : DateTimeInputProps :=
  { p with value := raw }

/-- `componentDidUpdate` of DateTimeInput.tsx, its parse result abstracted as
an input (`parseValue` lives in `src/inputs/parse.ts`, outside src/): when the
`value` prop changed and the new value parsed, replace the five stored fields;
otherwise leave the state alone. -/
def componentDidUpdate (valueChanged : Bool) (parsed : Option CanonicalDate)
    (st : DateTimeInputState) : DateTimeInputState :=
  if valueChanged then
    match parsed with
    | some d => { st with year := some d.year, month := some d.month, date := some d.date,
                          hour := some d.hour, minute := some d.minute }
    | none => st
  else st

/-! ### MonthInput -/

/-- The configuration surface of `MonthInput` (`MonthInputProps`). -/
structure MonthInputProps where
  value : String
  dateFormat : String
  initialDate : String
  disable : List String
  minDate : String
  maxDate : String
  closable : Bool
  inline : Bool
  localization : Option String
deriving DecidableEq, Repr

/-- The data object `handleSelect` of MonthInput.tsx passes to the caller's
`onChange`, given the serialized output string it computed:
`\x7b ...this.props, value: output \x7d`. -/
def monthHandleSelectData (p : MonthInputProps) (output : String) : MonthInputProps :=
  { p with value := output }

/-! ### The deferred tick queue -/

/-- A deferred callback: the undelayed bodies of the two mode switches and of
the selection handler. -/
inductive DeferredTask where
  | nextM
  | prevM
  | select (v : PickerValue)
deriving DecidableEq, Repr

/-- A selection session: the props, the component state, the pending deferred
tasks in FIFO order, and the onChange payloads emitted so far. -/
structure Session where
  props : DateTimeInputProps
  st : DateTimeInputState
  queue : List DeferredTask
  emitted : List DateTimeInputProps
deriving DecidableEq, Repr

/-- Modelled from the spec: `tick` from `src/lib` (not under src/) — enqueue a
callback on the FIFO deferred-task queue to run after the current synchronous
event handling returns. -/
def tick (t : DeferredTask) (s : Session) : Session :=
  { s with queue := s.queue ++ [t] }

/-- `switchToNextMode` of DateTimeInput.tsx: defer the undelayed switch by one
tick. -/
def switchToNextMode (s : Session) : Session := tick .nextM s

/-- `switchToPrevMode` of DateTimeInput.tsx: defer the undelayed switch by one
tick. -/
def switchToPrevMode (s : Session) : Session := tick .prevM s

/-- `handleSelect` of DateTimeInput.tsx: defer `handleSelectUndelayed` by one
tick. -/
def handleSelect (v : PickerValue) (s : Session) : Session := tick (.select v) s

/-- Run one deferred task: the undelayed mode switches update the mode; a
deferred selection runs `handleSelectUndelayed`, records its emission, and
enqueues the `switchToNextMode` it scheduled. -/
def runTask (s : Session) (t : DeferredTask) : Session :=
  match t with
  | .nextM => { s with st := switchToNextModeUndelayed s.st }
  | .prevM => { s with st := switchToPrevModeUndelayed s.st }
  | .select v =>
      let o := handleSelectUndelayed s.props s.st v
      { s with st := o.state,
               emitted := s.emitted ++ o.onChangeData.toList,
               queue := s.queue ++ if o.nextScheduled then [.nextM] else [] }

/-! ### Auxiliary definitions for the theorems -/

/-- The effect of one parsed format token on an accumulator, when the input
being parsed was serialized from `v`: each numeric token overwrites its field
with the corresponding field of `v`; a literal leaves the accumulator alone. -/
def applyTok (v : CanonicalDate) (acc : CanonicalDate) : FmtToken → CanonicalDate
  | .tYYYY => { acc with year := v.year }
  | .tMM => { acc with month := v.month }
  | .tDD => { acc with date := v.date }
  | .tHH => { acc with hour := v.hour }
  | .tmm => { acc with minute := v.minute }
  | .tLit _ => acc

/-- A concrete props record matching the component's default props
(`dateFormat 'DD-MM-YYYY'`, `timeFormat '24'`, `startMode 'day'`,
`divider ' '`), with `preserveViewMode` off. -/
def sampleProps : DateTimeInputProps :=
  { value := "", dateFormat := "DD-MM-YYYY", timeFormat := .h24, divider := " ",
    dateTimeFormat := none, startMode := .day, preserveViewMode := false,
    closable := false, initialDate := "", disable := [], minDate := "",
    maxDate := "", marked := [], markColor := "", localization := "" }

/-- A concrete state in minute mode with a fully accumulated selection. -/
def sampleState : DateTimeInputState :=
  { mode := .minute, year := some 2024, month := some 2, date := some 5,
    hour := some 14, minute := some 30, popupIsClosed := true }

/-- The same concrete state but in day mode. -/
def dayState : DateTimeInputState := { sampleState with mode := .day }

/-- A concrete picker selection: 2024-03-05 14:30 (month 0-based). -/
def sampleVal : PickerValue :=
  { year := some 2024, month := some 2, date := some 5, hour := some 14, minute := some 30 }

/-- A concrete `MonthInput` props record. -/
def sampleMonthProps : MonthInputProps :=
  { value := "", dateFormat := "MMM", initialDate := "", disable := [],
    minDate := "", maxDate := "", closable := false, inline := false,
    localization := none }

/-! ### Shared lemmas -/

/-- Full characterization of one confirmed selection, the deferred mode switch
included: the stored fields become the selected fields; the mode advances
exactly when it was not `minute`; the commit fires exactly in `minute` mode. -/
lemma handleSelectRun_eq (p : DateTimeInputProps) (st : DateTimeInputState)
    (v : PickerValue) :
    handleSelectRun p st v =
      { state := { mode := if st.mode = .minute then st.mode else getNextMode st.mode,
                   year := v.year, month := v.month, date := v.date,
                   hour := v.hour, minute := v.minute,
                   popupIsClosed := if p.closable ∧ st.mode = .minute then true
                                    else st.popupIsClosed },
        onChangeData := if st.mode = .minute then
            some { p with value := formatMoment (pickerToCanonical v) (getDateTimeFormat p) }
          else none,
        nextScheduled := decide (st.mode ≠ .minute) } := by
  obtain ⟨mode, y, mo, d, h, mi, pc⟩ := st
  by_cases hc : p.closable <;>
    cases mode <;>
      simp [handleSelectRun, handleSelectUndelayed, switchToNextModeUndelayed, hc, getNextMode]

/-! ### Round-trip lemmas for the serializer and parser -/

lemma readDigit_digitChar (d : Nat) (h : d < 10) : readDigit (digitChar d) = some d := by
  interval_cases d <;> decide

lemma read2_pad2 (n : Nat) (h : n < 100) (rest : List Char) :
    read2 (pad2 n ++ rest) = some (n, rest) := by
  have h1 : n / 10 % 10 < 10 := Nat.mod_lt _ (by norm_num)
  have h2 : n % 10 < 10 := Nat.mod_lt _ (by norm_num)
  simp only [pad2, List.cons_append, List.nil_append, read2,
    readDigit_digitChar _ h1, readDigit_digitChar _ h2, Option.bind_some]
  refine congrArg some (Prod.ext ?_ rfl)
  omega

lemma read4_pad4 (n : Nat) (h : n < 10000) (rest : List Char) :
    read4 (pad4 n ++ rest) = some (n, rest) := by
  have h1 : n / 1000 % 10 < 10 := Nat.mod_lt _ (by norm_num)
  have h2 : n / 100 % 10 < 10 := Nat.mod_lt _ (by norm_num)
  have h3 : n / 10 % 10 < 10 := Nat.mod_lt _ (by norm_num)
  have h4 : n % 10 < 10 := Nat.mod_lt _ (by norm_num)
  simp only [pad4, List.cons_append, List.nil_append, read4,
    readDigit_digitChar _ h1, readDigit_digitChar _ h2, readDigit_digitChar _ h3,
    readDigit_digitChar _ h4, Option.bind_some]
  refine congrArg some (Prod.ext ?_ rfl)
  omega

lemma serializeToks_cons (v : CanonicalDate) (t : FmtToken) (ts : List FmtToken) :
    serializeToks v (t :: ts) = serializeTok v t ++ serializeToks v ts := by
  simp [serializeToks]

/-- Parsing a serialized token list consumes it entirely, overwrites exactly
the fields of the numeric tokens present, and leaves the rest of the input. -/
lemma runParse_serializeToks (v : CanonicalDate) (hy : v.year < 10000)
    (hm : v.month + 1 < 100) (hd : v.date < 100) (hh : v.hour < 100)
    (hmin : v.minute < 100) :
    ∀ (ts : List FmtToken) (cs : List Char) (acc : CanonicalDate),
      runParse ts (serializeToks v ts ++ cs) acc = some (ts.foldl (applyTok v) acc, cs) := by
  intro ts
  induction ts with
  | nil =>
      intro cs acc
      simp [serializeToks, runParse]
  | cons t ts ih =>
      intro cs acc
      rw [serializeToks_cons, List.append_assoc]
      cases t with
      | tYYYY =>
          simp only [serializeTok, runParse, read4_pad4 v.year hy, Option.bind_some,
            List.foldl_cons, applyTok]
          exact ih _ _
      | tMM =>
          simp only [serializeTok, runParse, read2_pad2 (v.month + 1) hm, Option.bind_some,
            List.foldl_cons, applyTok, Nat.add_sub_cancel]
          exact ih _ _
      | tDD =>
          simp only [serializeTok, runParse, read2_pad2 v.date hd, Option.bind_some,
            List.foldl_cons, applyTok]
          exact ih _ _
      | tHH =>
          simp only [serializeTok, runParse, read2_pad2 v.hour hh, Option.bind_some,
            List.foldl_cons, applyTok]
          exact ih _ _
      | tmm =>
          simp only [serializeTok, runParse, read2_pad2 v.minute hmin, Option.bind_some,
            List.foldl_cons, applyTok]
          exact ih _ _
      | tLit c =>
          simp only [serializeTok, List.cons_append, List.nil_append, runParse, if_pos rfl,
            List.foldl_cons, applyTok]
          exact ih _ _

lemma foldl_applyTok_year (v : CanonicalDate) (ts : List FmtToken) :
    ∀ acc, (ts.foldl (applyTok v) acc).year =
      if FmtToken.tYYYY ∈ ts then v.year else acc.year := by
  induction ts with
  | nil => intro acc; simp
  | cons t ts ih =>
      intro acc
      cases t <;> simp [applyTok, ih, List.mem_cons]

lemma foldl_applyTok_month (v : CanonicalDate) (ts : List FmtToken) :
    ∀ acc, (ts.foldl (applyTok v) acc).month =
      if FmtToken.tMM ∈ ts then v.month else acc.month := by
  induction ts with
  | nil => intro acc; simp
  | cons t ts ih =>
      intro acc
      cases t <;> simp [applyTok, ih, List.mem_cons]

lemma foldl_applyTok_date (v : CanonicalDate) (ts : List FmtToken) :
    ∀ acc, (ts.foldl (applyTok v) acc).date =
      if FmtToken.tDD ∈ ts then v.date else acc.date := by
  induction ts with
  | nil => intro acc; simp
  | cons t ts ih =>
      intro acc
      cases t <;> simp [applyTok, ih, List.mem_cons]

lemma foldl_applyTok_hour (v : CanonicalDate) (ts : List FmtToken) :
    ∀ acc, (ts.foldl (applyTok v) acc).hour =
      if FmtToken.tHH ∈ ts then v.hour else acc.hour := by
  induction ts with
  | nil => intro acc; simp
  | cons t ts ih =>
      intro acc
      cases t <;> simp [applyTok, ih, List.mem_cons]

lemma foldl_applyTok_minute (v : CanonicalDate) (ts : List FmtToken) :
    ∀ acc, (ts.foldl (applyTok v) acc).minute =
      if FmtToken.tmm ∈ ts then v.minute else acc.minute := by
  induction ts with
  | nil => intro acc; simp
  | cons t ts ih =>
      intro acc
      cases t <;> simp [applyTok, ih, List.mem_cons]

lemma CanonicalDate.ext' (a b : CanonicalDate) (h1 : a.year = b.year)
    (h2 : a.month = b.month) (h3 : a.date = b.date) (h4 : a.hour = b.hour)
    (h5 : a.minute = b.minute) : a = b := by
  cases a; cases b; simp_all

/-! ### Claim theorems -/

/-- C3: the forward mode map is the fixed five-cycle
year→month→day→hour→minute→year, the backward map is its exact inverse, and
applying `getNextMode` (resp. `getPrevMode`) five times to any mode returns
that mode. -/
theorem mode_maps_five_cycle_and_inverse :
    (getNextMode .year = .month ∧ getNextMode .month = .day ∧ getNextMode .day = .hour ∧
      getNextMode .hour = .minute ∧ getNextMode .minute = .year) ∧
    (∀ m m' : CalendarMode, getNextMode m = m' ↔ getPrevMode m' = m) ∧
    (∀ m : CalendarMode, getNextMode^[5] m = m) ∧
    (∀ m : CalendarMode, getPrevMode^[5] m = m) := by
  refine ⟨⟨rfl, rfl, rfl, rfl, rfl⟩, ?_, ?_, ?_⟩
  · intro m m'
    cases m <;> cases m' <;> simp [getNextMode, getPrevMode]
  · intro m
    cases m <;> rfl
  · intro m
    cases m <;> rfl

/-- C7: on the focus-entered event, the mode resets to the configured
`startMode` when `preserveViewMode` is false and the state is left unchanged
when `preserveViewMode` is true. -/
theorem onFocus_mode_reset (p : DateTimeInputProps) (st : DateTimeInputState) :
    (p.preserveViewMode = false → onFocus p st = { st with mode := p.startMode }) ∧
    (p.preserveViewMode = true → onFocus p st = st) := by
  constructor <;> intro h <;> simp [onFocus, h]

/-- C7 witness: with `preserveViewMode = false` and `startMode = day`, a prior
minute mode resets to day on focus; with `preserveViewMode = true` the state is
kept. -/
theorem onFocus_mode_reset_witness :
    onFocus sampleProps sampleState = { sampleState with mode := .day } ∧
    onFocus { sampleProps with preserveViewMode := true } sampleState = sampleState :=
  ⟨(onFocus_mode_reset sampleProps sampleState).1 rfl,
    (onFocus_mode_reset { sampleProps with preserveViewMode := true } sampleState).2 rfl⟩

/-- C10: when the `value` prop changed but the new raw value fails to parse,
`componentDidUpdate` leaves the whole state — in particular every stored date
field — unchanged, for either value of the prop-changed test. -/
theorem componentDidUpdate_parse_failure_keeps_state (b : Bool) (st : DateTimeInputState) :
    componentDidUpdate b none st = st := by
  cases b <;> rfl

/-- C6: `switchToNextMode`, `switchToPrevMode` and `handleSelect` are deferred
through the tick scheduler: their synchronous portion leaves the component
state and the emitted notifications untouched and only appends one task to the
FIFO queue; the mode change happens only when the deferred task is run. -/
theorem mode_transitions_deferred_one_tick (s : Session) (v : PickerValue) :
    ((switchToNextMode s).st = s.st ∧ (switchToNextMode s).emitted = s.emitted ∧
      (switchToNextMode s).queue = s.queue ++ [.nextM]) ∧
    ((switchToPrevMode s).st = s.st ∧ (switchToPrevMode s).emitted = s.emitted ∧
      (switchToPrevMode s).queue = s.queue ++ [.prevM]) ∧
    ((handleSelect v s).st = s.st ∧ (handleSelect v s).emitted = s.emitted ∧
      (handleSelect v s).queue = s.queue ++ [.select v]) ∧
    (runTask s .nextM).st.mode = getNextMode s.st.mode ∧
    (runTask s .prevM).st.mode = getPrevMode s.st.mode :=
  ⟨⟨rfl, rfl, rfl⟩, ⟨rfl, rfl, rfl⟩, ⟨rfl, rfl, rfl⟩, rfl, rfl⟩

/-- C1: for every confirmed selection handled by `handleSelectUndelayed`
(the deferred mode switch it schedules included): when the current mode is not
`minute`, the stored fields take the selected values, the mode advances to its
forward successor and no onChange fires; when the current mode is `minute`,
the mode does not advance and the accumulated selection is serialized with the
effective format and handed to onChange. -/
theorem handleSelect_minute_boundary (p : DateTimeInputProps) (st : DateTimeInputState)
    (v : PickerValue) :
    (st.mode ≠ .minute →
      (handleSelectRun p st v).state.year = v.year ∧
      (handleSelectRun p st v).state.month = v.month ∧
      (handleSelectRun p st v).state.date = v.date ∧
      (handleSelectRun p st v).state.hour = v.hour ∧
      (handleSelectRun p st v).state.minute = v.minute ∧
      (handleSelectRun p st v).state.mode = getNextMode st.mode ∧
      (handleSelectRun p st v).onChangeData = none) ∧
    (st.mode = .minute →
      (handleSelectRun p st v).state.mode = st.mode ∧
      (handleSelectRun p st v).nextScheduled = false ∧
      (handleSelectRun p st v).onChangeData =
        some { p with value := formatMoment (pickerToCanonical v) (getDateTimeFormat p) }) := by
  rw [handleSelectRun_eq]
  constructor
  · intro h
    simp [h]
  · intro h
    simp [h]

/-- C1 witness: from day mode a confirmed selection stores the fields, moves
the mode to hour and fires nothing; from minute mode the mode stays and the
serialized commit fires. -/
theorem handleSelect_minute_boundary_witness :
    ((handleSelectRun sampleProps dayState sampleVal).state.mode = getNextMode dayState.mode ∧
      (handleSelectRun sampleProps dayState sampleVal).onChangeData = none) ∧
    ((handleSelectRun sampleProps sampleState sampleVal).state.mode = sampleState.mode ∧
      (handleSelectRun sampleProps sampleState sampleVal).onChangeData =
        some { sampleProps with
                value := formatMoment (pickerToCanonical sampleVal)
                  (getDateTimeFormat sampleProps) }) :=
  ⟨⟨((handleSelect_minute_boundary sampleProps dayState sampleVal).1 (by decide)).2.2.2.2.2.1,
    ((handleSelect_minute_boundary sampleProps dayState sampleVal).1 (by decide)).2.2.2.2.2.2⟩,
  ⟨((handleSelect_minute_boundary sampleProps sampleState sampleVal).2 rfl).1,
    ((handleSelect_minute_boundary sampleProps sampleState sampleVal).2 rfl).2.2⟩⟩

/-- C2 counterexample: confirming a selection while in minute mode does NOT
move the mode to year — the commit fires and the mode stays at minute. -/
theorem minute_commit_mode_stays_counterexample :
    sampleState.mode = .minute ∧
    (handleSelectRun sampleProps sampleState sampleVal).onChangeData.isSome = true ∧
    (handleSelectRun sampleProps sampleState sampleVal).state.mode = .minute ∧
    ¬ (handleSelectRun sampleProps sampleState sampleVal).state.mode = .year := by
  rw [handleSelectRun_eq]
  refine ⟨rfl, rfl, rfl, by decide⟩

/-- C2 (amended): starting in mode day, each confirmed selection moves the
mode one step forward (day to hour, hour to minute), and confirming a
selection while in mode minute fires the commit (onChange) and leaves the mode
unchanged at minute rather than advancing it to year. -/
theorem mode_walk_from_day (p : DateTimeInputProps) (st : DateTimeInputState)
    (v1 v2 v3 : PickerValue) (h : st.mode = .day) :
    (handleSelectRun p st v1).state.mode = .hour ∧
    (handleSelectRun p (handleSelectRun p st v1).state v2).state.mode = .minute ∧
    (handleSelectRun p
        (handleSelectRun p (handleSelectRun p st v1).state v2).state v3).onChangeData.isSome
      = true ∧
    (handleSelectRun p
        (handleSelectRun p (handleSelectRun p st v1).state v2).state v3).state.mode = .minute := by
  simp only [handleSelectRun_eq, h]
  simp [getNextMode]

/-- C2 (amended) witness: the day → hour → minute walk with a final committing
minute confirmation, at concrete inputs. -/
theorem mode_walk_from_day_witness :
    (handleSelectRun sampleProps dayState sampleVal).state.mode = .hour ∧
    (handleSelectRun sampleProps (handleSelectRun sampleProps dayState sampleVal).state
        sampleVal).state.mode = .minute ∧
    (handleSelectRun sampleProps
        (handleSelectRun sampleProps (handleSelectRun sampleProps dayState sampleVal).state
          sampleVal).state sampleVal).onChangeData.isSome = true ∧
    (handleSelectRun sampleProps
        (handleSelectRun sampleProps (handleSelectRun sampleProps dayState sampleVal).state
          sampleVal).state sampleVal).state.mode = .minute :=
  mode_walk_from_day sampleProps dayState sampleVal sampleVal sampleVal rfl

/-- C4 counterexample: a provided but empty `dateTimeFormat` is NOT returned
unchanged — the JavaScript `||` treats the empty string as falsy and the
resolver returns the composed `dateFormat + divider + TIME_FORMAT` instead. -/
theorem getDateTimeFormat_empty_override_counterexample :
    ({ sampleProps with dateTimeFormat := some "" } : DateTimeInputProps).dateTimeFormat
        = some "" ∧
    getDateTimeFormat { sampleProps with dateTimeFormat := some "" } = "DD-MM-YYYY HH:mm" ∧
    getDateTimeFormat { sampleProps with dateTimeFormat := some "" } ≠ "" := by
  refine ⟨rfl, rfl, by decide⟩

/-- C4 (amended): the effective composite format equals `dateTimeFormat`
unchanged whenever `dateTimeFormat` is provided and non-empty; otherwise
(absent or empty) it equals `dateFormat ++ divider ++ TIME_FORMAT timeFormat`. -/
theorem getDateTimeFormat_resolution (p : DateTimeInputProps) :
    (∀ s, p.dateTimeFormat = some s → s ≠ "" → getDateTimeFormat p = s) ∧
    (p.dateTimeFormat = none ∨ p.dateTimeFormat = some "" →
      getDateTimeFormat p = p.dateFormat ++ p.divider ++ TIME_FORMAT p.timeFormat) := by
  constructor
  · intro s hs hne
    simp [getDateTimeFormat, hs, hne]
  · rintro (h | h) <;> simp [getDateTimeFormat, h]

/-- C4 (amended) witness: a non-empty override is returned unchanged; an
absent override composes date, divider and time tokens. -/
theorem getDateTimeFormat_resolution_witness :
    getDateTimeFormat { sampleProps with dateTimeFormat := some "YYYY" } = "YYYY" ∧
    getDateTimeFormat sampleProps =
      sampleProps.dateFormat ++ sampleProps.divider ++ TIME_FORMAT sampleProps.timeFormat :=
  ⟨(getDateTimeFormat_resolution { sampleProps with dateTimeFormat := some "YYYY" }).1
      "YYYY" rfl (by decide),
    (getDateTimeFormat_resolution sampleProps).2 (Or.inl rfl)⟩

/-- C5: every output-change notification — the DateTimeInput minute-mode
commit, the DateTimeInput text edit, and the MonthInput month selection —
passes the caller a data object equal to the original props with only the
`value` field replaced by the new serialized value; every other configuration
field is identical to the caller-supplied props. -/
theorem onChange_payload_preserves_props (p : DateTimeInputProps)
    (st : DateTimeInputState) (v : PickerValue) (raw out : String)
    (q : MonthInputProps) :
    (st.mode = .minute →
      (handleSelectUndelayed p st v).onChangeData.map (·.value) =
          some (formatMoment (pickerToCanonical v) (getDateTimeFormat p)) ∧
      (handleSelectUndelayed p st v).onChangeData.map (·.dateFormat) = some p.dateFormat ∧
      (handleSelectUndelayed p st v).onChangeData.map (·.timeFormat) = some p.timeFormat ∧
      (handleSelectUndelayed p st v).onChangeData.map (·.divider) = some p.divider ∧
      (handleSelectUndelayed p st v).onChangeData.map (·.dateTimeFormat) = some p.dateTimeFormat ∧
      (handleSelectUndelayed p st v).onChangeData.map (·.startMode) = some p.startMode ∧
      (handleSelectUndelayed p st v).onChangeData.map (·.preserveViewMode) =
          some p.preserveViewMode ∧
      (handleSelectUndelayed p st v).onChangeData.map (·.closable) = some p.closable ∧
      (handleSelectUndelayed p st v).onChangeData.map (·.initialDate) = some p.initialDate ∧
      (handleSelectUndelayed p st v).onChangeData.map (·.disable) = some p.disable ∧
      (handleSelectUndelayed p st v).onChangeData.map (·.minDate) = some p.minDate ∧
      (handleSelectUndelayed p st v).onChangeData.map (·.maxDate) = some p.maxDate ∧
      (handleSelectUndelayed p st v).onChangeData.map (·.marked) = some p.marked ∧
      (handleSelectUndelayed p st v).onChangeData.map (·.markColor) = some p.markColor ∧
      (handleSelectUndelayed p st v).onChangeData.map (·.localization) = some p.localization) ∧
    ((onInputValueChangeData p raw).value = raw ∧
      (onInputValueChangeData p raw).dateFormat = p.dateFormat ∧
      (onInputValueChangeData p raw).timeFormat = p.timeFormat ∧
      (onInputValueChangeData p raw).divider = p.divider ∧
      (onInputValueChangeData p raw).dateTimeFormat = p.dateTimeFormat ∧
      (onInputValueChangeData p raw).startMode = p.startMode ∧
      (onInputValueChangeData p raw).preserveViewMode = p.preserveViewMode ∧
      (onInputValueChangeData p raw).closable = p.closable ∧
      (onInputValueChangeData p raw).initialDate = p.initialDate ∧
      (onInputValueChangeData p raw).disable = p.disable ∧
      (onInputValueChangeData p raw).minDate = p.minDate ∧
      (onInputValueChangeData p raw).maxDate = p.maxDate ∧
      (onInputValueChangeData p raw).marked = p.marked ∧
      (onInputValueChangeData p raw).markColor = p.markColor ∧
      (onInputValueChangeData p raw).localization = p.localization) ∧
    ((monthHandleSelectData q out).value = out ∧
      (monthHandleSelectData q out).dateFormat = q.dateFormat ∧
      (monthHandleSelectData q out).initialDate = q.initialDate ∧
      (monthHandleSelectData q out).disable = q.disable ∧
      (monthHandleSelectData q out).minDate = q.minDate ∧
      (monthHandleSelectData q out).maxDate = q.maxDate ∧
      (monthHandleSelectData q out).closable = q.closable ∧
      (monthHandleSelectData q out).inline = q.inline ∧
      (monthHandleSelectData q out).localization = q.localization) := by
  refine ⟨?_, ?_, ?_⟩
  · intro h
    have e : (handleSelectUndelayed p st v).onChangeData =
        some { p with value := formatMoment (pickerToCanonical v) (getDateTimeFormat p) } := by
      have e' := congrArg SelectOutcome.onChangeData (handleSelectRun_eq p st v)
      simpa [h] using e'
    rw [e]
    simp
  · exact ⟨rfl, rfl, rfl, rfl, rfl, rfl, rfl, rfl, rfl, rfl, rfl, rfl, rfl, rfl, rfl⟩
  · exact ⟨rfl, rfl, rfl, rfl, rfl, rfl, rfl, rfl, rfl⟩

/-- C5 witness: at a concrete minute-mode commit the payload carries the
serialized value and the caller's `dateFormat` untouched. -/
theorem onChange_payload_preserves_props_witness :
    (handleSelectUndelayed sampleProps sampleState sampleVal).onChangeData.map (·.value) =
        some (formatMoment (pickerToCanonical sampleVal) (getDateTimeFormat sampleProps)) ∧
    (handleSelectUndelayed sampleProps sampleState sampleVal).onChangeData.map (·.dateFormat) =
        some sampleProps.dateFormat :=
  ⟨((onChange_payload_preserves_props sampleProps sampleState sampleVal "" ""
      sampleMonthProps).1 rfl).1,
    ((onChange_payload_preserves_props sampleProps sampleState sampleVal "" ""
      sampleMonthProps).1 rfl).2.1⟩

/-- C9: serialization and parsing round-trip — for every canonical date value
in calendar range and every format whose tokens cover all five fields (as the
effective composite format does), parsing the string produced by serializing
the value under that format yields the value back, field for field. -/
theorem serialize_parse_roundtrip (v : CanonicalDate) (fmt : String)
    (hy : v.year < 10000) (hm : v.month < 12) (hd : v.date ≤ 31)
    (hh : v.hour < 24) (hmin : v.minute < 60)
    (hcov : FmtToken.tYYYY ∈ tokenize fmt.data ∧ FmtToken.tMM ∈ tokenize fmt.data ∧
      FmtToken.tDD ∈ tokenize fmt.data ∧ FmtToken.tHH ∈ tokenize fmt.data ∧
      FmtToken.tmm ∈ tokenize fmt.data) :
    parseFormat (formatMoment v fmt) fmt = some v := by
  have hrun := runParse_serializeToks v hy (by omega) (by omega) (by omega) (by omega)
    (tokenize fmt.data) [] default
  have hfold : (tokenize fmt.data).foldl (applyTok v) default = v := by
    refine CanonicalDate.ext' _ _ ?_ ?_ ?_ ?_ ?_
    · rw [foldl_applyTok_year, if_pos hcov.1]
    · rw [foldl_applyTok_month, if_pos hcov.2.1]
    · rw [foldl_applyTok_date, if_pos hcov.2.2.1]
    · rw [foldl_applyTok_hour, if_pos hcov.2.2.2.1]
    · rw [foldl_applyTok_minute, if_pos hcov.2.2.2.2]
  rw [List.append_nil] at hrun
  unfold parseFormat
  have hdata : (formatMoment v fmt).data = serializeToks v (tokenize fmt.data) := rfl
  rw [hdata, hrun, hfold]

/-- C9 witness: the spec's Scenario 1 value 2024-03-05 14:30 round-trips
through the default effective format `DD-MM-YYYY HH:mm` (its serialization is
`05-03-2024 14:30`). -/
theorem serialize_parse_roundtrip_witness :
    parseFormat (formatMoment ⟨2024, 2, 5, 14, 30⟩ "DD-MM-YYYY HH:mm")
        "DD-MM-YYYY HH:mm" = some ⟨2024, 2, 5, 14, 30⟩ ∧
    formatMoment ⟨2024, 2, 5, 14, 30⟩ "DD-MM-YYYY HH:mm" = "05-03-2024 14:30" :=
  ⟨serialize_parse_roundtrip ⟨2024, 2, 5, 14, 30⟩ "DD-MM-YYYY HH:mm" (by decide)
      (by decide) (by decide) (by decide) (by decide)
      ⟨by decide, by decide, by decide, by decide, by decide⟩,
    by decide⟩

end SemanticUICalendar
